import Mathlib

/-!
Shallow embedding of `cloud_services/storage_providers.py`
(`S3Service` and `AzureBlobService`), centred on the incremental
file-discovery algorithm `files_discovery`, and proofs of the spec's
claims about it.

Modelling conventions:
* Listing is external (boto3 paginator / Azure `list_blobs`); a discovery
  call receives the listed objects as `Except Unit (List _)` — `.error ()`
  models a listing failure, which the Python code does not catch.
* Byte content is `List Nat`; SHA-256 is an external function of the bytes
  streamed through the hasher, so the discovery functions are parameterised
  by `hashFn : List Nat → String` (the hex digest).
* A raised exception while fetching/reading one object's content is
  modelled by the `fetchFails` flag on the object.
* Timestamps are integer epoch seconds (`int(x.timestamp())` in the code);
  `Option Int` with `none` for an absent last-modified value.
-/

namespace CloudSpec

/-- Metadata and content of one S3 object as yielded by the
`list_objects_v2` paginator: `obj["Key"]`, `obj["Size"]`,
`obj["LastModified"]` (`none` when the entry carries no timestamp), the
byte content served by `get_object`, and whether reading that content
raises. -/
structure S3Object where
  key : String
  size : Nat
  lastModified : Option Int
  content : List Nat
  fetchFails : Bool
deriving DecidableEq

/-- Metadata and content of one Azure blob as yielded by `list_blobs`:
`blob.name`, `blob.size` (`none` when absent), `blob.last_modified`
(`none` when absent), the byte content served by `download_blob`, and
whether reading that content raises. -/
structure AzureBlob where
  name : String
  size : Option Nat
  lastModified : Option Int
  content : List Nat
  fetchFails : Bool
deriving DecidableEq

/-- Python `s.endswith(t)`: `t`'s character sequence is a suffix of
`s`'s. -/
def strEndsWith (s t : String) : Bool :=
  t.data.isSuffixOf s.data

/-- Path formatting `f"s3://{bucket_name}/{object_key}"` (line 116). -/
def s3Path (bucket key : String) : String :=
  "s3://" ++ bucket ++ "/" ++ key

/-- Path formatting `f"azure://{container}/{blob.name}"` (line 208). -/
def azurePath (container name : String) : String :=
  "azure://" ++ container ++ "/" ++ name

/-- Fuel-indexed helper for the S3 read loop: each `read(8192)` removes at
least one byte from a non-empty stream, so `l.length` fuel always
suffices; the fuel-exhausted case on a non-empty stream is unreachable
from `s3ReadChunks`. -/
def s3ReadChunksAux : Nat → List Nat → List (List Nat)
  | _, [] => []
  | 0, _ :: _ => []
  | fuel + 1, b :: bs =>
    ((b :: bs).take 8192) :: s3ReadChunksAux fuel ((b :: bs).drop 8192)

/-- The S3 read loop (lines 134-138): `file_obj.read(8192)` repeatedly
until empty, each chunk fed to `hasher.update`.  Returns the sequence of
chunks passed to the hasher. -/
def s3ReadChunks (l : List Nat) : List (List Nat) :=
  s3ReadChunksAux l.length l

/-- The sequence of byte buffers passed to `hasher.update` when S3
hashes one object: the 8192-byte read-loop chunks. -/
def s3HashUpdates (content : List Nat) : List (List Nat) :=
  s3ReadChunks content

/-- The sequence of byte buffers passed to `hasher.update` when Azure
hashes one blob: a single `downloader.readall()` (line 228), the whole
content at once. -/
def azureHashUpdates (content : List Nat) : List (List Nat) :=
  [content]

/-- One iteration of the S3 discovery loop body (lines 111-150) on object
`o`, threading the `seen_identifiers` set and the `discovered_paths`
accumulator.  `.error ()` models an uncaught exception (the `KeyError`
from `obj["LastModified"]` when the timestamp is absent — line 121 sits
outside the `try`). -/
def s3DiscoveryStep (hashFn : List Nat → String) (bucket : String)
    (ingested : List String) (latestCreatedAt : Int) (maxFileSizeMb : Nat)
    (useHash : Bool) (o : S3Object) (seen acc : List String) :
    Except Unit (List String × List String) :=
  if strEndsWith o.key "/" ∧ o.size = 0 then .ok (seen, acc)
  else
    let path := s3Path bucket o.key
    if path ∈ ingested then .ok (seen, acc)
    else
      match o.lastModified with
      | none => .error ()
      | some lm =>
        if lm ≤ latestCreatedAt then .ok (seen, acc)
        else if o.size > maxFileSizeMb * 1024 * 1024 then .ok (seen, acc)
        else if useHash then
          if o.fetchFails then .ok (seen, acc)
          else
            let d := hashFn (s3HashUpdates o.content).flatten
            if d ∈ seen then .ok (seen, acc)
            else .ok (d :: seen, acc ++ [path])
        else .ok (seen, acc ++ [path])

/-- The S3 discovery loop over the listed objects (lines 107-150). -/
def s3DiscoveryLoop (hashFn : List Nat → String) (bucket : String)
    (ingested : List String) (latestCreatedAt : Int) (maxFileSizeMb : Nat)
    (useHash : Bool) : List S3Object → List String → List String →
    Except Unit (List String)
  | [], _, acc => .ok acc
  | o :: rest, seen, acc =>
    match s3DiscoveryStep hashFn bucket ingested latestCreatedAt
        maxFileSizeMb useHash o seen acc with
    | .error e => .error e
    | .ok (seen', acc') =>
      s3DiscoveryLoop hashFn bucket ingested latestCreatedAt maxFileSizeMb
        useHash rest seen' acc'

/-- `S3Service.files_discovery` (lines 91-152).  `listing` is the
flattened output of the `list_objects_v2` paginator restricted to the
requested key range; `.error ()` stands for a listing failure, which the
code does not catch. -/
def s3FilesDiscovery (hashFn : List Nat → String) (bucket : String)
    (ingested : List String) (latestCreatedAt : Int) (maxFileSizeMb : Nat)
    (useHash : Bool) (listing : Except Unit (List S3Object)) :
    Except Unit (List String) :=
  match listing with
  | .error e => .error e
  | .ok objs =>
    s3DiscoveryLoop hashFn bucket ingested latestCreatedAt maxFileSizeMb
      useHash objs [] []

/-- One iteration of the Azure discovery loop body (lines 207-238) on blob
`b`.  The body never raises outside its `try`, so the step is total:
an absent `last_modified` is skipped (line 213), an absent `size` is read
as 0 (`blob.size or 0`, line 220), and a fetch failure during hashing is
caught and skipped. -/
def azureDiscoveryStep (hashFn : List Nat → String) (container : String)
    (ingested : List String) (latestCreatedAt : Int) (maxFileSizeMb : Nat)
    (useHash : Bool) (b : AzureBlob) (seen acc : List String) :
    List String × List String :=
  let path := azurePath container b.name
  if path ∈ ingested then (seen, acc)
  else
    match b.lastModified with
    | none => (seen, acc)
    | some lm =>
      if lm ≤ latestCreatedAt then (seen, acc)
      else if b.size.getD 0 > maxFileSizeMb * 1024 * 1024 then (seen, acc)
      else if useHash then
        if b.fetchFails then (seen, acc)
        else
          let d := hashFn (azureHashUpdates b.content).flatten
          if d ∈ seen then (seen, acc)
          else (d :: seen, acc ++ [path])
      else (seen, acc ++ [path])

/-- The Azure discovery loop over the listed blobs (lines 207-238). -/
def azureDiscoveryLoop (hashFn : List Nat → String) (container : String)
    (ingested : List String) (latestCreatedAt : Int) (maxFileSizeMb : Nat)
    (useHash : Bool) : List AzureBlob → List String → List String →
    List String
  | [], _, acc => acc
  | b :: rest, seen, acc =>
    match azureDiscoveryStep hashFn container ingested latestCreatedAt
        maxFileSizeMb useHash b seen acc with
    | (seen', acc') =>
      azureDiscoveryLoop hashFn container ingested latestCreatedAt
        maxFileSizeMb useHash rest seen' acc'

/-- `AzureBlobService.files_discovery` (lines 192-240).  `listing` is the
output of `container_client.list_blobs` restricted to the requested name
range; `.error ()` stands for a listing failure, which the code does not
catch. -/
def azureFilesDiscovery (hashFn : List Nat → String) (container : String)
    (ingested : List String) (latestCreatedAt : Int) (maxFileSizeMb : Nat)
    (useHash : Bool) (listing : Except Unit (List AzureBlob)) :
    Except Unit (List String) :=
  match listing with
  | .error e => .error e
  | .ok blobs =>
    .ok (azureDiscoveryLoop hashFn container ingested latestCreatedAt
      maxFileSizeMb useHash blobs [] [])

/-! ### Step lemmas, S3 -/

section S3Lemmas

variable {hashFn : List Nat → String} {bucket : String}
variable {ingested : List String} {latestCreatedAt : Int} {mx : Nat}
variable {uh : Bool} {o : S3Object} {seen acc : List String}

/-- Zero-byte directory markers are skipped (line 113), leaving the state
unchanged. -/
lemma s3Step_marker (h : strEndsWith o.key "/" = true) (h0 : o.size = 0) :
    s3DiscoveryStep hashFn bucket ingested latestCreatedAt mx uh o seen acc
      = .ok (seen, acc) := by
  simp [s3DiscoveryStep, h, h0]

/-- Already-ingested paths are skipped (lines 118-119). -/
lemma s3Step_ingested (h : s3Path bucket o.key ∈ ingested) :
    s3DiscoveryStep hashFn bucket ingested latestCreatedAt mx uh o seen acc
      = .ok (seen, acc) := by
  simp [s3DiscoveryStep, h]

/-- Objects at or below the watermark are skipped (lines 121-123). -/
lemma s3Step_stale {lm : Int} (hlm : o.lastModified = some lm)
    (hle : lm ≤ latestCreatedAt) :
    s3DiscoveryStep hashFn bucket ingested latestCreatedAt mx uh o seen acc
      = .ok (seen, acc) := by
  simp [s3DiscoveryStep, hlm, hle]

/-- Objects over the size limit are skipped (lines 126-128). -/
lemma s3Step_big {lm : Int} (hlm : o.lastModified = some lm)
    (hgt : o.size > mx * 1024 * 1024) :
    s3DiscoveryStep hashFn bucket ingested latestCreatedAt mx uh o seen acc
      = .ok (seen, acc) := by
  simp [s3DiscoveryStep, hlm, hgt]

/-- A fetch/hash failure is caught (lines 147-150) and the object
skipped, provided the uncaught timestamp access succeeded. -/
lemma s3Step_fetchFails {lm : Int} (hlm : o.lastModified = some lm)
    (hu : uh = true) (hf : o.fetchFails = true) :
    s3DiscoveryStep hashFn bucket ingested latestCreatedAt mx uh o seen acc
      = .ok (seen, acc) := by
  simp [s3DiscoveryStep, hlm, hu, hf]

/-- With hashing on, an object whose digest is already in
`seen_identifiers` is skipped (lines 141-142). -/
lemma s3Step_dup {lm : Int} (hlm : o.lastModified = some lm)
    (hu : uh = true)
    (hd : hashFn (s3HashUpdates o.content).flatten ∈ seen) :
    s3DiscoveryStep hashFn bucket ingested latestCreatedAt mx uh o seen acc
      = .ok (seen, acc) := by
  simp [s3DiscoveryStep, hlm, hu, hd]

/-- An object with no `LastModified` raises an uncaught `KeyError`
(line 121 sits outside the `try`) once it survives the marker and
ingested checks. -/
lemma s3Step_noTimestamp
    (hm : ¬(strEndsWith o.key "/" = true ∧ o.size = 0))
    (hi : s3Path bucket o.key ∉ ingested) (hlm : o.lastModified = none) :
    s3DiscoveryStep hashFn bucket ingested latestCreatedAt mx uh o seen acc
      = .error () := by
  simp [s3DiscoveryStep, hm, hi, hlm]

/-- An object passing every filter with hashing off is appended
(line 145). -/
lemma s3Step_pass_nohash {lm : Int}
    (hm : ¬(strEndsWith o.key "/" = true ∧ o.size = 0))
    (hi : s3Path bucket o.key ∉ ingested) (hlm : o.lastModified = some lm)
    (ht : latestCreatedAt < lm) (hs : ¬ o.size > mx * 1024 * 1024)
    (hu : uh = false) :
    s3DiscoveryStep hashFn bucket ingested latestCreatedAt mx uh o seen acc
      = .ok (seen, acc ++ [s3Path bucket o.key]) := by
  simp [s3DiscoveryStep, hm, hi, hlm, not_le.mpr ht, hs, hu]

/-- An object passing every filter with hashing on, a successful fetch
and a fresh digest records the digest and is appended (lines 143-145). -/
lemma s3Step_pass_hash {lm : Int}
    (hm : ¬(strEndsWith o.key "/" = true ∧ o.size = 0))
    (hi : s3Path bucket o.key ∉ ingested) (hlm : o.lastModified = some lm)
    (ht : latestCreatedAt < lm) (hs : ¬ o.size > mx * 1024 * 1024)
    (hu : uh = true) (hf : o.fetchFails = false)
    (hd : hashFn (s3HashUpdates o.content).flatten ∉ seen) :
    s3DiscoveryStep hashFn bucket ingested latestCreatedAt mx uh o seen acc
      = .ok (hashFn (s3HashUpdates o.content).flatten :: seen,
             acc ++ [s3Path bucket o.key]) := by
  simp [s3DiscoveryStep, hm, hi, hlm, not_le.mpr ht, hs, hu, hf, hd]

/-- Any successful step either leaves both accumulators unchanged or
conses one digest onto `seen` and appends one not-ingested path to the
result. -/
lemma s3Step_shape {s' a' : List String}
    (h : s3DiscoveryStep hashFn bucket ingested latestCreatedAt mx uh o
      seen acc = .ok (s', a')) :
    (s' = seen ∨ s' = hashFn (s3HashUpdates o.content).flatten :: seen) ∧
    (a' = acc ∨ (a' = acc ++ [s3Path bucket o.key] ∧
      s3Path bucket o.key ∉ ingested)) := by
  simp only [s3DiscoveryStep] at h
  repeat' split at h
  all_goals simp_all

end S3Lemmas

/-! ### Loop lemmas, S3 -/

section S3LoopLemmas

variable {hashFn : List Nat → String} {bucket : String}
variable {ingested : List String} {latestCreatedAt : Int} {mx : Nat}
variable {uh : Bool}

/-- Everything already in `discovered_paths` survives to the final
result of a successful scan. -/
lemma s3Loop_acc_mem {objs : List S3Object} :
    ∀ {seen acc res : List String},
      s3DiscoveryLoop hashFn bucket ingested latestCreatedAt mx uh objs
        seen acc = .ok res →
      ∀ p ∈ acc, p ∈ res := by
  induction objs with
  | nil =>
    intro seen acc res h p hp
    simp only [s3DiscoveryLoop, Except.ok.injEq] at h
    exact h ▸ hp
  | cons o rest ih =>
    intro seen acc res h p hp
    rw [s3DiscoveryLoop] at h
    cases hstep : s3DiscoveryStep hashFn bucket ingested latestCreatedAt
        mx uh o seen acc with
    | error e => rw [hstep] at h; simp at h
    | ok pr =>
      obtain ⟨s', a'⟩ := pr
      rw [hstep] at h
      simp only at h
      have hshape := s3Step_shape hstep
      rcases hshape.2 with h2 | ⟨h2, _⟩
      · exact ih h p (h2 ▸ hp)
      · exact ih h p (h2 ▸ List.mem_append_left _ hp)

/-- An object whose step never changes the state contributes nothing:
the scan behaves as if it were not listed. -/
lemma s3Loop_skip {o : S3Object} {post : List S3Object}
    (hstep : ∀ seen acc : List String,
      s3DiscoveryStep hashFn bucket ingested latestCreatedAt mx uh o seen
        acc = .ok (seen, acc)) :
    ∀ (pre : List S3Object) (seen acc : List String),
      s3DiscoveryLoop hashFn bucket ingested latestCreatedAt mx uh
        (pre ++ o :: post) seen acc =
      s3DiscoveryLoop hashFn bucket ingested latestCreatedAt mx uh
        (pre ++ post) seen acc := by
  intro pre
  induction pre with
  | nil =>
    intro seen acc
    simp only [List.nil_append]
    rw [s3DiscoveryLoop, hstep]
  | cons q pre' ih =>
    intro seen acc
    simp only [List.cons_append]
    rw [s3DiscoveryLoop, s3DiscoveryLoop]
    cases hq : s3DiscoveryStep hashFn bucket ingested latestCreatedAt mx
        uh q seen acc with
    | error e => rfl
    | ok pr => obtain ⟨s', a'⟩ := pr; exact ih s' a'

/-- With hashing on, once a digest is recorded in `seen_identifiers` any
later object with that digest (and an available timestamp) contributes
nothing to the scan. -/
lemma s3Loop_dup_skip {o2 : S3Object} {lm2 : Int} {dig : String}
    {post : List S3Object}
    (hlm2 : o2.lastModified = some lm2) (hu : uh = true)
    (hdig : hashFn (s3HashUpdates o2.content).flatten = dig) :
    ∀ (mid : List S3Object) (seen acc : List String), dig ∈ seen →
      s3DiscoveryLoop hashFn bucket ingested latestCreatedAt mx uh
        (mid ++ o2 :: post) seen acc =
      s3DiscoveryLoop hashFn bucket ingested latestCreatedAt mx uh
        (mid ++ post) seen acc := by
  intro mid
  induction mid with
  | nil =>
    intro seen acc hin
    simp only [List.nil_append]
    rw [s3DiscoveryLoop, s3Step_dup hlm2 hu (hdig ▸ hin)]
  | cons q mid' ih =>
    intro seen acc hin
    simp only [List.cons_append]
    rw [s3DiscoveryLoop, s3DiscoveryLoop]
    cases hq : s3DiscoveryStep hashFn bucket ingested latestCreatedAt mx
        uh q seen acc with
    | error e => rfl
    | ok pr =>
      obtain ⟨s', a'⟩ := pr
      have hshape := s3Step_shape hq
      rcases hshape.1 with h1 | h1
      · exact ih s' a' (h1 ▸ hin)
      · exact ih s' a' (h1 ▸ List.mem_cons_of_mem _ hin)

/-- With hashing off, every object passing all four checks lands in the
result of a successful scan. -/
lemma s3Loop_mem_pass {o : S3Object} {lm : Int}
    (hu : uh = false)
    (hm : ¬(strEndsWith o.key "/" = true ∧ o.size = 0))
    (hi : s3Path bucket o.key ∉ ingested) (hlm : o.lastModified = some lm)
    (ht : latestCreatedAt < lm) (hs : ¬ o.size > mx * 1024 * 1024) :
    ∀ {objs : List S3Object} {seen acc res : List String}, o ∈ objs →
      s3DiscoveryLoop hashFn bucket ingested latestCreatedAt mx uh objs
        seen acc = .ok res →
      s3Path bucket o.key ∈ res := by
  intro objs
  induction objs with
  | nil => intro seen acc res ho; exact absurd ho (List.not_mem_nil o)
  | cons q rest ih =>
    intro seen acc res ho h
    rw [s3DiscoveryLoop] at h
    rcases List.mem_cons.mp ho with rfl | ho'
    · rw [s3Step_pass_nohash hm hi hlm ht hs hu] at h
      simp only at h
      exact s3Loop_acc_mem h _ (List.mem_append_right _ (List.mem_singleton.mpr rfl))
    · cases hq : s3DiscoveryStep hashFn bucket ingested latestCreatedAt
          mx uh q seen acc with
      | error e => rw [hq] at h; simp at h
      | ok pr =>
        obtain ⟨s', a'⟩ := pr
        rw [hq] at h
        simp only at h
        exact ih ho' h

/-- Every path in the result of a successful scan escaped the
caller-supplied ingested set. -/
lemma s3Loop_not_ingested {objs : List S3Object} :
    ∀ {seen acc res : List String},
      (∀ p ∈ acc, p ∉ ingested) →
      s3DiscoveryLoop hashFn bucket ingested latestCreatedAt mx uh objs
        seen acc = .ok res →
      ∀ p ∈ res, p ∉ ingested := by
  induction objs with
  | nil =>
    intro seen acc res hacc h
    simp only [s3DiscoveryLoop, Except.ok.injEq] at h
    exact h ▸ hacc
  | cons o rest ih =>
    intro seen acc res hacc h
    rw [s3DiscoveryLoop] at h
    cases hstep : s3DiscoveryStep hashFn bucket ingested latestCreatedAt
        mx uh o seen acc with
    | error e => rw [hstep] at h; simp at h
    | ok pr =>
      obtain ⟨s', a'⟩ := pr
      rw [hstep] at h
      simp only at h
      have hshape := s3Step_shape hstep
      rcases hshape.2 with h2 | ⟨h2, hnotin⟩
      · exact ih (h2 ▸ hacc) h
      · refine ih ?_ h
        subst h2
        intro p hp
        rcases List.mem_append.mp hp with hp | hp
        · exact hacc p hp
        · rwa [List.mem_singleton.mp hp]

/-- A listed object with no timestamp that survives the marker and
ingested checks aborts the whole S3 scan with an uncaught error. -/
lemma s3Loop_error {o : S3Object}
    (hm : ¬(strEndsWith o.key "/" = true ∧ o.size = 0))
    (hi : s3Path bucket o.key ∉ ingested) (hlm : o.lastModified = none) :
    ∀ {objs : List S3Object} {seen acc : List String}, o ∈ objs →
      s3DiscoveryLoop hashFn bucket ingested latestCreatedAt mx uh objs
        seen acc = .error () := by
  intro objs
  induction objs with
  | nil => intro seen acc ho; exact absurd ho (List.not_mem_nil o)
  | cons q rest ih =>
    intro seen acc ho
    rw [s3DiscoveryLoop]
    rcases List.mem_cons.mp ho with rfl | ho'
    · rw [s3Step_noTimestamp hm hi hlm]
    · cases hq : s3DiscoveryStep hashFn bucket ingested latestCreatedAt
          mx uh q seen acc with
      | error e => rfl
      | ok pr => obtain ⟨s', a'⟩ := pr; exact ih ho'

end S3LoopLemmas

/-! ### Step lemmas, Azure -/

section AzureLemmas

variable {hashFn : List Nat → String} {container : String}
variable {ingested : List String} {latestCreatedAt : Int} {mx : Nat}
variable {uh : Bool} {b : AzureBlob} {seen acc : List String}

/-- Already-ingested blob paths are skipped (lines 210-211). -/
lemma azureStep_ingested (h : azurePath container b.name ∈ ingested) :
    azureDiscoveryStep hashFn container ingested latestCreatedAt mx uh b
      seen acc = (seen, acc) := by
  simp [azureDiscoveryStep, h]

/-- A blob with no `last_modified` is skipped, not an error
(lines 213-214). -/
lemma azureStep_noTimestamp (hlm : b.lastModified = none) :
    azureDiscoveryStep hashFn container ingested latestCreatedAt mx uh b
      seen acc = (seen, acc) := by
  simp [azureDiscoveryStep, hlm]

/-- Blobs at or below the watermark are skipped (lines 216-217). -/
lemma azureStep_stale {lm : Int} (hlm : b.lastModified = some lm)
    (hle : lm ≤ latestCreatedAt) :
    azureDiscoveryStep hashFn container ingested latestCreatedAt mx uh b
      seen acc = (seen, acc) := by
  simp [azureDiscoveryStep, hlm, hle]

/-- Blobs over the size limit are skipped (lines 220-222); an absent
size reads as 0 (`blob.size or 0`). -/
lemma azureStep_big {lm : Int} (hlm : b.lastModified = some lm)
    (hgt : b.size.getD 0 > mx * 1024 * 1024) :
    azureDiscoveryStep hashFn container ingested latestCreatedAt mx uh b
      seen acc = (seen, acc) := by
  simp [azureDiscoveryStep, hlm, hgt]

/-- A fetch/hash failure is caught (lines 237-238) and the blob
skipped. -/
lemma azureStep_fetchFails {lm : Int} (hlm : b.lastModified = some lm)
    (hu : uh = true) (hf : b.fetchFails = true) :
    azureDiscoveryStep hashFn container ingested latestCreatedAt mx uh b
      seen acc = (seen, acc) := by
  simp [azureDiscoveryStep, hlm, hu, hf]

/-- With hashing on, a blob whose digest is already in
`seen_identifiers` is skipped (lines 231-232). -/
lemma azureStep_dup {lm : Int} (hlm : b.lastModified = some lm)
    (hu : uh = true)
    (hd : hashFn (azureHashUpdates b.content).flatten ∈ seen) :
    azureDiscoveryStep hashFn container ingested latestCreatedAt mx uh b
      seen acc = (seen, acc) := by
  simp [azureDiscoveryStep, hlm, hu, hd]

/-- A blob passing every filter with hashing off is appended
(line 235). -/
lemma azureStep_pass_nohash {lm : Int}
    (hi : azurePath container b.name ∉ ingested)
    (hlm : b.lastModified = some lm) (ht : latestCreatedAt < lm)
    (hs : ¬ b.size.getD 0 > mx * 1024 * 1024) (hu : uh = false) :
    azureDiscoveryStep hashFn container ingested latestCreatedAt mx uh b
      seen acc = (seen, acc ++ [azurePath container b.name]) := by
  simp [azureDiscoveryStep, hi, hlm, not_le.mpr ht, hs, hu]

/-- A blob passing every filter with hashing on, a successful fetch and
a fresh digest records the digest and is appended (lines 233-235). -/
lemma azureStep_pass_hash {lm : Int}
    (hi : azurePath container b.name ∉ ingested)
    (hlm : b.lastModified = some lm) (ht : latestCreatedAt < lm)
    (hs : ¬ b.size.getD 0 > mx * 1024 * 1024) (hu : uh = true)
    (hf : b.fetchFails = false)
    (hd : hashFn (azureHashUpdates b.content).flatten ∉ seen) :
    azureDiscoveryStep hashFn container ingested latestCreatedAt mx uh b
      seen acc = (hashFn (azureHashUpdates b.content).flatten :: seen,
        acc ++ [azurePath container b.name]) := by
  simp [azureDiscoveryStep, hi, hlm, not_le.mpr ht, hs, hu, hf, hd]

/-- Any Azure step either leaves both accumulators unchanged or conses
one digest onto `seen` and appends one not-ingested path. -/
lemma azureStep_shape {s' a' : List String}
    (h : azureDiscoveryStep hashFn container ingested latestCreatedAt mx
      uh b seen acc = (s', a')) :
    (s' = seen ∨
      s' = hashFn (azureHashUpdates b.content).flatten :: seen) ∧
    (a' = acc ∨ (a' = acc ++ [azurePath container b.name] ∧
      azurePath container b.name ∉ ingested)) := by
  simp only [azureDiscoveryStep] at h
  repeat' split at h
  all_goals simp_all

end AzureLemmas

/-! ### Loop lemmas, Azure -/

section AzureLoopLemmas

variable {hashFn : List Nat → String} {container : String}
variable {ingested : List String} {latestCreatedAt : Int} {mx : Nat}
variable {uh : Bool}

/-- Everything already in `discovered_paths` survives to the final
result of the Azure scan. -/
lemma azureLoop_acc_mem {blobs : List AzureBlob} :
    ∀ {seen acc : List String}, ∀ p ∈ acc,
      p ∈ azureDiscoveryLoop hashFn container ingested latestCreatedAt mx
        uh blobs seen acc := by
  induction blobs with
  | nil => intro seen acc p hp; simpa [azureDiscoveryLoop] using hp
  | cons b rest ih =>
    intro seen acc p hp
    rw [azureDiscoveryLoop]
    cases hstep : azureDiscoveryStep hashFn container ingested
        latestCreatedAt mx uh b seen acc with
    | mk s' a' =>
      simp only
      have hshape := azureStep_shape hstep
      rcases hshape.2 with h2 | ⟨h2, _⟩
      · exact ih p (h2 ▸ hp)
      · exact ih p (h2 ▸ List.mem_append_left _ hp)

/-- A blob whose step never changes the state contributes nothing: the
scan behaves as if it were not listed. -/
lemma azureLoop_skip {b : AzureBlob} {post : List AzureBlob}
    (hstep : ∀ seen acc : List String,
      azureDiscoveryStep hashFn container ingested latestCreatedAt mx uh
        b seen acc = (seen, acc)) :
    ∀ (pre : List AzureBlob) (seen acc : List String),
      azureDiscoveryLoop hashFn container ingested latestCreatedAt mx uh
        (pre ++ b :: post) seen acc =
      azureDiscoveryLoop hashFn container ingested latestCreatedAt mx uh
        (pre ++ post) seen acc := by
  intro pre
  induction pre with
  | nil =>
    intro seen acc
    simp only [List.nil_append]
    rw [azureDiscoveryLoop, hstep]
  | cons q pre' ih =>
    intro seen acc
    simp only [List.cons_append]
    rw [azureDiscoveryLoop, azureDiscoveryLoop]
    cases hq : azureDiscoveryStep hashFn container ingested
        latestCreatedAt mx uh q seen acc with
    | mk s' a' => exact ih s' a'

/-- With hashing on, once a digest is recorded any later blob with that
digest contributes nothing to the Azure scan. -/
lemma azureLoop_dup_skip {b2 : AzureBlob} {dig : String}
    {post : List AzureBlob}
    (hu : uh = true)
    (hdig : hashFn (azureHashUpdates b2.content).flatten = dig) :
    ∀ (mid : List AzureBlob) (seen acc : List String), dig ∈ seen →
      azureDiscoveryLoop hashFn container ingested latestCreatedAt mx uh
        (mid ++ b2 :: post) seen acc =
      azureDiscoveryLoop hashFn container ingested latestCreatedAt mx uh
        (mid ++ post) seen acc := by
  intro mid
  induction mid with
  | nil =>
    intro seen acc hin
    simp only [List.nil_append]
    cases hlm : b2.lastModified with
    | none => rw [azureDiscoveryLoop, azureStep_noTimestamp hlm]
    | some lm => rw [azureDiscoveryLoop, azureStep_dup hlm hu (hdig ▸ hin)]
  | cons q mid' ih =>
    intro seen acc hin
    simp only [List.cons_append]
    rw [azureDiscoveryLoop, azureDiscoveryLoop]
    cases hq : azureDiscoveryStep hashFn container ingested
        latestCreatedAt mx uh q seen acc with
    | mk s' a' =>
      have hshape := azureStep_shape hq
      rcases hshape.1 with h1 | h1
      · exact ih s' a' (h1 ▸ hin)
      · exact ih s' a' (h1 ▸ List.mem_cons_of_mem _ hin)

/-- With hashing off, every blob passing all the checks lands in the
Azure scan's result. -/
lemma azureLoop_mem_pass {b : AzureBlob} {lm : Int}
    (hu : uh = false)
    (hi : azurePath container b.name ∉ ingested)
    (hlm : b.lastModified = some lm) (ht : latestCreatedAt < lm)
    (hs : ¬ b.size.getD 0 > mx * 1024 * 1024) :
    ∀ {blobs : List AzureBlob} {seen acc : List String}, b ∈ blobs →
      azurePath container b.name ∈
        azureDiscoveryLoop hashFn container ingested latestCreatedAt mx
          uh blobs seen acc := by
  intro blobs
  induction blobs with
  | nil => intro seen acc hb; exact absurd hb (List.not_mem_nil b)
  | cons q rest ih =>
    intro seen acc hb
    rw [azureDiscoveryLoop]
    rcases List.mem_cons.mp hb with rfl | hb'
    · rw [azureStep_pass_nohash hi hlm ht hs hu]
      simp only
      exact azureLoop_acc_mem _
        (List.mem_append_right _ (List.mem_singleton.mpr rfl))
    · cases hq : azureDiscoveryStep hashFn container ingested
          latestCreatedAt mx uh q seen acc with
      | mk s' a' => simp only; exact ih hb'

/-- Every path in the Azure scan's result escaped the caller-supplied
ingested set. -/
lemma azureLoop_not_ingested {blobs : List AzureBlob} :
    ∀ {seen acc : List String},
      (∀ p ∈ acc, p ∉ ingested) →
      ∀ p ∈ azureDiscoveryLoop hashFn container ingested latestCreatedAt
        mx uh blobs seen acc, p ∉ ingested := by
  induction blobs with
  | nil =>
    intro seen acc hacc p hp
    rw [azureDiscoveryLoop] at hp
    exact hacc p hp
  | cons b rest ih =>
    intro seen acc hacc p hp
    rw [azureDiscoveryLoop] at hp
    cases hstep : azureDiscoveryStep hashFn container ingested
        latestCreatedAt mx uh b seen acc with
    | mk s' a' =>
      rw [hstep] at hp
      simp only at hp
      have hshape := azureStep_shape hstep
      rcases hshape.2 with h2 | ⟨h2, hnotin⟩
      · exact ih (h2 ▸ hacc) p hp
      · refine ih ?_ p hp
        subst h2
        intro q hq
        rcases List.mem_append.mp hq with hq | hq
        · exact hacc q hq
        · rwa [List.mem_singleton.mp hq]

end AzureLoopLemmas

/-! ### Duplicate-content erase lemmas -/

section DupErase

variable {hashFn : List Nat → String} {bucket container : String}
variable {ingested : List String} {latestCreatedAt : Int} {mx : Nat}
variable {uh : Bool}

/-- Definitional unfolding of one S3 loop iteration. -/
lemma s3Loop_cons {o : S3Object} {rest : List S3Object}
    {seen acc : List String} :
    s3DiscoveryLoop hashFn bucket ingested latestCreatedAt mx uh
      (o :: rest) seen acc =
    (match s3DiscoveryStep hashFn bucket ingested latestCreatedAt mx uh o
        seen acc with
     | .error e => .error e
     | .ok (s', a') =>
       s3DiscoveryLoop hashFn bucket ingested latestCreatedAt mx uh rest
         s' a') := rfl

/-- Definitional unfolding of one Azure loop iteration. -/
lemma azureLoop_cons {b : AzureBlob} {rest : List AzureBlob}
    {seen acc : List String} :
    azureDiscoveryLoop hashFn container ingested latestCreatedAt mx uh
      (b :: rest) seen acc =
    (match azureDiscoveryStep hashFn container ingested latestCreatedAt
        mx uh b seen acc with
     | (s', a') =>
       azureDiscoveryLoop hashFn container ingested latestCreatedAt mx uh
         rest s' a') := rfl

/-- With hashing on, a later S3 object whose content hashes like an
earlier object that reached the hasher successfully contributes nothing:
the scan behaves as if the later copy were not listed. -/
lemma s3Loop_dup_erase {o1 o2 : S3Object} {lm1 lm2 : Int}
    {mid post : List S3Object}
    (hu : uh = true)
    (hm1 : ¬(strEndsWith o1.key "/" = true ∧ o1.size = 0))
    (hi1 : s3Path bucket o1.key ∉ ingested)
    (hlm1 : o1.lastModified = some lm1) (ht1 : latestCreatedAt < lm1)
    (hs1 : ¬ o1.size > mx * 1024 * 1024) (hf1 : o1.fetchFails = false)
    (hlm2 : o2.lastModified = some lm2)
    (hdig : hashFn (s3HashUpdates o2.content).flatten =
      hashFn (s3HashUpdates o1.content).flatten) :
    ∀ (pre : List S3Object) (seen acc : List String),
      s3DiscoveryLoop hashFn bucket ingested latestCreatedAt mx uh
        (pre ++ o1 :: (mid ++ o2 :: post)) seen acc =
      s3DiscoveryLoop hashFn bucket ingested latestCreatedAt mx uh
        (pre ++ o1 :: (mid ++ post)) seen acc := by
  intro pre
  induction pre with
  | nil =>
    intro seen acc
    simp only [List.nil_append]
    rw [s3Loop_cons, s3Loop_cons]
    by_cases hd : hashFn (s3HashUpdates o1.content).flatten ∈ seen
    · rw [s3Step_dup hlm1 hu hd]
      simp only
      exact s3Loop_dup_skip hlm2 hu hdig mid seen acc (hdig ▸ hd)
    · rw [s3Step_pass_hash hm1 hi1 hlm1 ht1 hs1 hu hf1 hd]
      simp only
      exact s3Loop_dup_skip hlm2 hu hdig mid _ _
        (hdig ▸ List.mem_cons_self _ _)
  | cons q pre' ih =>
    intro seen acc
    simp only [List.cons_append]
    rw [s3Loop_cons, s3Loop_cons]
    cases hq : s3DiscoveryStep hashFn bucket ingested latestCreatedAt mx
        uh q seen acc with
    | error e => rfl
    | ok pr => obtain ⟨s', a'⟩ := pr; exact ih s' a'

/-- With hashing on, a later Azure blob whose content hashes like an
earlier blob that reached the hasher successfully contributes nothing. -/
lemma azureLoop_dup_erase {b1 b2 : AzureBlob} {lm1 : Int}
    {mid post : List AzureBlob}
    (hu : uh = true)
    (hi1 : azurePath container b1.name ∉ ingested)
    (hlm1 : b1.lastModified = some lm1) (ht1 : latestCreatedAt < lm1)
    (hs1 : ¬ b1.size.getD 0 > mx * 1024 * 1024)
    (hf1 : b1.fetchFails = false)
    (hdig : hashFn (azureHashUpdates b2.content).flatten =
      hashFn (azureHashUpdates b1.content).flatten) :
    ∀ (pre : List AzureBlob) (seen acc : List String),
      azureDiscoveryLoop hashFn container ingested latestCreatedAt mx uh
        (pre ++ b1 :: (mid ++ b2 :: post)) seen acc =
      azureDiscoveryLoop hashFn container ingested latestCreatedAt mx uh
        (pre ++ b1 :: (mid ++ post)) seen acc := by
  intro pre
  induction pre with
  | nil =>
    intro seen acc
    simp only [List.nil_append]
    rw [azureLoop_cons, azureLoop_cons]
    by_cases hd : hashFn (azureHashUpdates b1.content).flatten ∈ seen
    · rw [azureStep_dup hlm1 hu hd]
      simp only
      exact azureLoop_dup_skip hu hdig mid seen acc (hdig ▸ hd)
    · rw [azureStep_pass_hash hi1 hlm1 ht1 hs1 hu hf1 hd]
      simp only
      exact azureLoop_dup_skip hu hdig mid _ _
        (hdig ▸ List.mem_cons_self _ _)
  | cons q pre' ih =>
    intro seen acc
    simp only [List.cons_append]
    rw [azureLoop_cons, azureLoop_cons]
    cases hq : azureDiscoveryStep hashFn container ingested
        latestCreatedAt mx uh q seen acc with
    | mk s' a' => exact ih s' a'

end DupErase

/-! ### Read-loop chunk lemmas -/

/-- Every chunk the fuel-indexed read loop yields is at most 8192
bytes. -/
lemma s3ReadChunksAux_bounded :
    ∀ (f : Nat) (l : List Nat), ∀ ch ∈ s3ReadChunksAux f l,
      ch.length ≤ 8192 := by
  intro f
  induction f with
  | zero => intro l ch hch; cases l <;> simp [s3ReadChunksAux] at hch
  | succ f ih =>
    intro l ch hch
    cases l with
    | nil => simp [s3ReadChunksAux] at hch
    | cons b bs =>
      rw [s3ReadChunksAux] at hch
      rcases List.mem_cons.mp hch with rfl | h
      · simp [List.length_take]
      · exact ih _ _ h

/-- With enough fuel the read loop consumes the whole stream: its chunks
concatenate back to the input. -/
lemma s3ReadChunksAux_flatten :
    ∀ (f : Nat) (l : List Nat), l.length ≤ f →
      (s3ReadChunksAux f l).flatten = l := by
  intro f
  induction f with
  | zero =>
    intro l hl
    rw [List.length_eq_zero.mp (Nat.le_zero.mp hl)]
    rfl
  | succ f ih =>
    intro l hl
    cases l with
    | nil => rfl
    | cons b bs =>
      rw [s3ReadChunksAux, List.flatten_cons, ih _ (by simp at hl ⊢; omega),
        List.take_append_drop]

/-- Each buffer S3 feeds to `hasher.update` is at most 8192 bytes. -/
lemma s3HashUpdates_bounded (c : List Nat) :
    ∀ ch ∈ s3HashUpdates c, ch.length ≤ 8192 :=
  s3ReadChunksAux_bounded c.length c

/-- The buffers S3 feeds to `hasher.update` concatenate to the full
object content: the digest covers exactly the object's bytes. -/
lemma s3HashUpdates_flatten (c : List Nat) :
    (s3HashUpdates c).flatten = c :=
  s3ReadChunksAux_flatten c.length c le_rfl

/-! ### `S3Service.__init__` (lines 58-89) -/

/-- Process-wide environment defaults imported from
`cloud_services.env_vars` (`AWS_KEY`, `AWS_SECRET`, `AWS_URL`,
`AWS_REGION`); each may be unset. -/
structure S3Env where
  awsKey : Option String
  awsSecret : Option String
  awsUrl : Option String
  awsRegion : Option String
deriving DecidableEq

/-- The keyword arguments with which `boto3.client("s3", ...)` ends up
being called: credentials/endpoint kwargs plus `Config.region_name`. -/
structure S3ClientConfig where
  accessKeyId : Option String
  secretAccessKey : Option String
  endpointUrl : Option String
  regionName : Option String
deriving DecidableEq

/-- `S3Service.__init__` (lines 65-89): builds `s3_provided_keys` from
the four arguments; if any is not `None` it pops `region` and calls
`boto3.client` with `Config(region_name=aws_region)` and
`**self.s3_default` (the class-level environment defaults — the provided
credentials are never passed on); otherwise it calls `boto3.client` with
`Config(region_name=AWS_REGION)` and the same `**self.s3_default`. -/
def s3ServiceInit (env : S3Env)
    (awsKey awsSecret awsUrl awsRegion : Option String) : S3ClientConfig :=
  let anyProvided :=
    awsKey.isSome || awsSecret.isSome || awsUrl.isSome || awsRegion.isSome
  if anyProvided then
    { accessKeyId := env.awsKey
      secretAccessKey := env.awsSecret
      endpointUrl := env.awsUrl
      regionName := awsRegion }
  else
    { accessKeyId := env.awsKey
      secretAccessKey := env.awsSecret
      endpointUrl := env.awsUrl
      regionName := env.awsRegion }

/-! ### Claims -/

/-- C1: on both backends, every path in the list returned by
`files_discovery` is absent from the caller-supplied
`ingested_paths`: the result is disjoint from the ingested set,
regardless of the objects' sizes, timestamps or contents. -/
theorem c1_result_disjoint_from_ingested
    (hashFn : List Nat → String) (bucket container : String)
    (ingested : List String) (t : Int) (mx : Nat) (uh : Bool)
    (listingS3 : Except Unit (List S3Object))
    (listingAz : Except Unit (List AzureBlob)) :
    (∀ res, s3FilesDiscovery hashFn bucket ingested t mx uh
        listingS3 = .ok res → ∀ p ∈ ingested, p ∉ res) ∧
    (∀ res, azureFilesDiscovery hashFn container ingested t mx uh
        listingAz = .ok res → ∀ p ∈ ingested, p ∉ res) := by
  constructor
  · intro res h p hp hmem
    cases listingS3 with
    | error e => simp [s3FilesDiscovery] at h
    | ok objs =>
      simp only [s3FilesDiscovery] at h
      exact s3Loop_not_ingested (fun q hq => absurd hq (List.not_mem_nil q))
        h p hmem hp
  · intro res h p hp hmem
    cases listingAz with
    | error e => simp [azureFilesDiscovery] at h
    | ok blobs =>
      simp only [azureFilesDiscovery, Except.ok.injEq] at h
      exact azureLoop_not_ingested
        (fun q hq => absurd hq (List.not_mem_nil q)) p (h ▸ hmem) hp

/-- Witness for C1 at a concrete input: with `s3://c/a` and
`azure://c/a` already ingested, neither appears in the concrete results
`["s3://c/b"]` and `["azure://c/b"]`. -/
theorem c1_result_disjoint_from_ingested_witness :
    "s3://c/a" ∈ ["s3://c/a", "azure://c/a"] ∧
    "s3://c/a" ∉ ["s3://c/b"] ∧ "azure://c/a" ∉ ["azure://c/b"] := by
  have h := c1_result_disjoint_from_ingested (fun _ => "d") "c" "c"
    ["s3://c/a", "azure://c/a"] 0 500 false
    (.ok [⟨"a", 1, some 5, [], false⟩, ⟨"b", 1, some 5, [], false⟩])
    (.ok [⟨"a", some 1, some 5, [], false⟩, ⟨"b", some 1, some 5, [], false⟩])
  exact ⟨by decide, h.1 ["s3://c/b"] rfl "s3://c/a" (by decide),
    h.2 ["azure://c/b"] rfl "azure://c/a" (by decide)⟩

/-- C2: on both backends an object whose last-modified timestamp is at
or below the `latest_created_at` watermark contributes nothing to the
result — the scan behaves as if the object were not listed — and the
boundary case `lastModified = watermark` is excluded. -/
theorem c2_watermark_excludes
    (hashFn : List Nat → String) (bucket container : String)
    (ingested : List String) (t : Int) (mx : Nat) (uh : Bool)
    (o : S3Object) (lm : Int) (pre post : List S3Object)
    (b : AzureBlob) (lmb : Int) (preb postb : List AzureBlob)
    (hlm : o.lastModified = some lm) (hle : lm ≤ t)
    (hlmb : b.lastModified = some lmb) (hleb : lmb ≤ t) :
    s3FilesDiscovery hashFn bucket ingested t mx uh
        (.ok (pre ++ o :: post)) =
      s3FilesDiscovery hashFn bucket ingested t mx uh
        (.ok (pre ++ post)) ∧
    azureFilesDiscovery hashFn container ingested t mx uh
        (.ok (preb ++ b :: postb)) =
      azureFilesDiscovery hashFn container ingested t mx uh
        (.ok (preb ++ postb)) := by
  constructor
  · simp only [s3FilesDiscovery]
    exact s3Loop_skip (fun seen acc => s3Step_stale hlm hle) pre [] []
  · simp only [azureFilesDiscovery, Except.ok.injEq]
    exact azureLoop_skip (fun seen acc => azureStep_stale hlmb hleb)
      preb [] []

/-- Witness for C2 at the boundary: an object stamped exactly at the
watermark (100 = 100) is excluded on both backends. -/
theorem c2_watermark_excludes_witness :
    (100 : Int) ≤ 100 ∧
    s3FilesDiscovery (fun _ => "d") "c" [] 100 500 false
        (.ok [⟨"k", 1, some 100, [], false⟩]) =
      s3FilesDiscovery (fun _ => "d") "c" [] 100 500 false (.ok []) ∧
    azureFilesDiscovery (fun _ => "d") "c" [] 100 500 false
        (.ok [⟨"k", some 1, some 100, [], false⟩]) =
      azureFilesDiscovery (fun _ => "d") "c" [] 100 500 false (.ok []) := by
  have h := c2_watermark_excludes (fun _ => "d") "c" "c" [] 100 500 false
    ⟨"k", 1, some 100, [], false⟩ 100 [] []
    ⟨"k", some 1, some 100, [], false⟩ 100 [] []
    rfl (by decide) rfl (by decide)
  exact ⟨by decide, h.1, h.2⟩

/-- C3: on both backends an object strictly larger than
`max_file_size_mb * 1024 * 1024` bytes contributes nothing to the
result, while an object of exactly that size passes the size filter and
appears in the result when it passes the remaining filters. -/
theorem c3_size_filter_boundary
    (hashFn : List Nat → String) (bucket container : String)
    (ingested : List String) (t : Int) (mx : Nat) (uh : Bool) :
    (∀ (o : S3Object) (lm : Int) (pre post : List S3Object),
      o.lastModified = some lm → o.size > mx * 1024 * 1024 →
      s3FilesDiscovery hashFn bucket ingested t mx uh
          (.ok (pre ++ o :: post)) =
        s3FilesDiscovery hashFn bucket ingested t mx uh
          (.ok (pre ++ post))) ∧
    (∀ (b : AzureBlob) (lm : Int) (pre post : List AzureBlob),
      b.lastModified = some lm → b.size.getD 0 > mx * 1024 * 1024 →
      azureFilesDiscovery hashFn container ingested t mx uh
          (.ok (pre ++ b :: post)) =
        azureFilesDiscovery hashFn container ingested t mx uh
          (.ok (pre ++ post))) ∧
    (∀ (o : S3Object) (lm : Int) (objs : List S3Object)
        (res : List String),
      ¬(strEndsWith o.key "/" = true ∧ o.size = 0) →
      s3Path bucket o.key ∉ ingested → o.lastModified = some lm →
      t < lm → o.size = mx * 1024 * 1024 → o ∈ objs →
      s3FilesDiscovery hashFn bucket ingested t mx false (.ok objs) =
        .ok res →
      s3Path bucket o.key ∈ res) ∧
    (∀ (b : AzureBlob) (lm : Int) (blobs : List AzureBlob)
        (res : List String),
      azurePath container b.name ∉ ingested → b.lastModified = some lm →
      t < lm → b.size = some (mx * 1024 * 1024) → b ∈ blobs →
      azureFilesDiscovery hashFn container ingested t mx false
          (.ok blobs) = .ok res →
      azurePath container b.name ∈ res) := by
  refine ⟨?_, ?_, ?_, ?_⟩
  · intro o lm pre post hlm hgt
    simp only [s3FilesDiscovery]
    exact s3Loop_skip (fun seen acc => s3Step_big hlm hgt) pre [] []
  · intro b lm pre post hlm hgt
    simp only [azureFilesDiscovery, Except.ok.injEq]
    exact azureLoop_skip (fun seen acc => azureStep_big hlm hgt) pre [] []
  · intro o lm objs res hm hi hlm ht hsz ho h
    simp only [s3FilesDiscovery] at h
    exact s3Loop_mem_pass rfl hm hi hlm ht (by omega) ho h
  · intro b lm blobs res hi hlm ht hsz hb h
    simp only [azureFilesDiscovery, Except.ok.injEq] at h
    exact h ▸ azureLoop_mem_pass rfl hi hlm ht (by simp [hsz]) hb

/-- Witness for C3 at a concrete input with `max_file_size_mb = 1`: a
1048577-byte object is excluded on both backends, and a 1048576-byte
object (exactly at the boundary) appears in both results. -/
theorem c3_size_filter_boundary_witness :
    (1048577 > 1 * 1024 * 1024 ∧ 1048576 = 1 * 1024 * 1024) ∧
    s3FilesDiscovery (fun _ => "d") "c" [] 0 1 false
        (.ok [⟨"big", 1048577, some 5, [], false⟩]) =
      s3FilesDiscovery (fun _ => "d") "c" [] 0 1 false (.ok []) ∧
    azureFilesDiscovery (fun _ => "d") "c" [] 0 1 false
        (.ok [⟨"big", some 1048577, some 5, [], false⟩]) =
      azureFilesDiscovery (fun _ => "d") "c" [] 0 1 false (.ok []) ∧
    "s3://c/edge" ∈ ["s3://c/edge"] ∧
    "azure://c/edge" ∈ ["azure://c/edge"] := by
  have h := c3_size_filter_boundary (fun _ => "d") "c" "c" [] 0 1 false
  refine ⟨⟨by decide, by decide⟩,
    h.1 ⟨"big", 1048577, some 5, [], false⟩ 5 [] [] rfl (by decide),
    h.2.1 ⟨"big", some 1048577, some 5, [], false⟩ 5 [] [] rfl (by decide),
    h.2.2.1 ⟨"edge", 1048576, some 5, [], false⟩ 5
      [⟨"edge", 1048576, some 5, [], false⟩] ["s3://c/edge"]
      (by decide) (by decide) rfl (by decide) (by decide) (by decide) rfl,
    h.2.2.2 ⟨"edge", some 1048576, some 5, [], false⟩ 5
      [⟨"edge", some 1048576, some 5, [], false⟩] ["azure://c/edge"]
      (by decide) rfl (by decide) rfl (by decide) rfl⟩

/-- Counterexample to C4 as stated: the same zero-byte entry named
`d/` — newer than the watermark, not ingested, within the size limit —
is excluded by the S3 scan but returned by the Azure scan, whose loop
has no directory-marker check. -/
theorem c4_counterexample_azure_returns_marker :
    s3FilesDiscovery (fun _ => "d") "c" [] 0 500 false
        (.ok [⟨"d/", 0, some 10, [], false⟩]) = .ok [] ∧
    azureFilesDiscovery (fun _ => "d") "c" [] 0 500 false
        (.ok [⟨"d/", some 0, some 10, [], false⟩]) =
      .ok ["azure://c/d/"] :=
  ⟨rfl, rfl⟩

/-- C4 amended: only `S3Service.files_discovery` always excludes
zero-byte entries whose key ends in `/` (they contribute nothing to the
scan, whatever their timestamp or ingestion status);
`AzureBlobService.files_discovery` has no such check and returns a
zero-byte `/`-terminated blob whenever it passes the ingested, recency
and size filters. -/
theorem c4_marker_skip_s3_only
    (hashFn : List Nat → String) (bucket container : String)
    (ingested : List String) (t : Int) (mx : Nat) (uh : Bool) :
    (∀ (o : S3Object) (pre post : List S3Object),
      strEndsWith o.key "/" = true → o.size = 0 →
      s3FilesDiscovery hashFn bucket ingested t mx uh
          (.ok (pre ++ o :: post)) =
        s3FilesDiscovery hashFn bucket ingested t mx uh
          (.ok (pre ++ post))) ∧
    (∀ (b : AzureBlob) (lm : Int) (blobs : List AzureBlob)
        (res : List String),
      strEndsWith b.name "/" = true → b.size.getD 0 = 0 →
      azurePath container b.name ∉ ingested → b.lastModified = some lm →
      t < lm → b ∈ blobs →
      azureFilesDiscovery hashFn container ingested t mx false
          (.ok blobs) = .ok res →
      azurePath container b.name ∈ res) := by
  constructor
  · intro o pre post hsl h0
    simp only [s3FilesDiscovery]
    exact s3Loop_skip (fun seen acc => s3Step_marker hsl h0) pre [] []
  · intro b lm blobs res hsl h0 hi hlm ht hb h
    simp only [azureFilesDiscovery, Except.ok.injEq] at h
    exact h ▸ azureLoop_mem_pass rfl hi hlm ht (by omega) hb

/-- Witness for the amended C4 at a concrete input: the S3 scan is
unchanged by deleting the marker `d/` from the listing, while the Azure
scan returns `azure://c/d/` for the very same entry. -/
theorem c4_marker_skip_s3_only_witness :
    strEndsWith "d/" "/" = true ∧
    s3FilesDiscovery (fun _ => "h") "c" [] 0 500 false
        (.ok [⟨"d/", 0, some 10, [], false⟩, ⟨"a", 1, some 10, [], false⟩]) =
      s3FilesDiscovery (fun _ => "h") "c" [] 0 500 false
        (.ok [⟨"a", 1, some 10, [], false⟩]) ∧
    "azure://c/d/" ∈ ["azure://c/d/"] := by
  have h := c4_marker_skip_s3_only (fun _ => "h") "c" "c" [] 0 500 false
  exact ⟨by decide,
    h.1 ⟨"d/", 0, some 10, [], false⟩ [] [⟨"a", 1, some 10, [], false⟩]
      (by decide) rfl,
    h.2 ⟨"d/", some 0, some 10, [], false⟩ 10
      [⟨"d/", some 0, some 10, [], false⟩] ["azure://c/d/"]
      (by decide) rfl (by decide) rfl (by decide) (by decide) rfl⟩

/-- C5: with `use_hash = true`, on both backends, a later listed object
whose byte content equals that of an earlier object that passed all
filters and hashed successfully contributes nothing to the result (the
scan behaves as if the later copy were not listed), while the earlier
copy — when it heads the listing — does appear; with `use_hash = false`
both identical-content objects appear.  The duplicate's own fetch
outcome is irrelevant; on S3 it only needs a present timestamp, which
the loop reads unconditionally. -/
theorem c5_content_hash_dedup
    (hashFn : List Nat → String) (bucket container : String)
    (ingested : List String) (t : Int) (mx : Nat) :
    (∀ (o1 o2 : S3Object) (lm1 lm2 : Int) (pre mid post : List S3Object),
      ¬(strEndsWith o1.key "/" = true ∧ o1.size = 0) →
      s3Path bucket o1.key ∉ ingested → o1.lastModified = some lm1 →
      t < lm1 → ¬ o1.size > mx * 1024 * 1024 → o1.fetchFails = false →
      o2.lastModified = some lm2 → o2.content = o1.content →
      s3FilesDiscovery hashFn bucket ingested t mx true
          (.ok (pre ++ o1 :: (mid ++ o2 :: post))) =
        s3FilesDiscovery hashFn bucket ingested t mx true
          (.ok (pre ++ o1 :: (mid ++ post)))) ∧
    (∀ (b1 b2 : AzureBlob) (lm1 : Int) (pre mid post : List AzureBlob),
      azurePath container b1.name ∉ ingested →
      b1.lastModified = some lm1 → t < lm1 →
      ¬ b1.size.getD 0 > mx * 1024 * 1024 → b1.fetchFails = false →
      b2.content = b1.content →
      azureFilesDiscovery hashFn container ingested t mx true
          (.ok (pre ++ b1 :: (mid ++ b2 :: post))) =
        azureFilesDiscovery hashFn container ingested t mx true
          (.ok (pre ++ b1 :: (mid ++ post)))) ∧
    (∀ (o1 : S3Object) (lm1 : Int) (rest : List S3Object)
        (res : List String),
      ¬(strEndsWith o1.key "/" = true ∧ o1.size = 0) →
      s3Path bucket o1.key ∉ ingested → o1.lastModified = some lm1 →
      t < lm1 → ¬ o1.size > mx * 1024 * 1024 → o1.fetchFails = false →
      s3FilesDiscovery hashFn bucket ingested t mx true
          (.ok (o1 :: rest)) = .ok res →
      s3Path bucket o1.key ∈ res) ∧
    (∀ (b1 : AzureBlob) (lm1 : Int) (rest : List AzureBlob)
        (res : List String),
      azurePath container b1.name ∉ ingested →
      b1.lastModified = some lm1 → t < lm1 →
      ¬ b1.size.getD 0 > mx * 1024 * 1024 → b1.fetchFails = false →
      azureFilesDiscovery hashFn container ingested t mx true
          (.ok (b1 :: rest)) = .ok res →
      azurePath container b1.name ∈ res) ∧
    (∀ (o1 o2 : S3Object) (lm1 lm2 : Int) (objs : List S3Object)
        (res : List String),
      ¬(strEndsWith o1.key "/" = true ∧ o1.size = 0) →
      s3Path bucket o1.key ∉ ingested → o1.lastModified = some lm1 →
      t < lm1 → ¬ o1.size > mx * 1024 * 1024 →
      ¬(strEndsWith o2.key "/" = true ∧ o2.size = 0) →
      s3Path bucket o2.key ∉ ingested → o2.lastModified = some lm2 →
      t < lm2 → ¬ o2.size > mx * 1024 * 1024 →
      o1 ∈ objs → o2 ∈ objs →
      s3FilesDiscovery hashFn bucket ingested t mx false (.ok objs) =
        .ok res →
      s3Path bucket o1.key ∈ res ∧ s3Path bucket o2.key ∈ res) ∧
    (∀ (b1 b2 : AzureBlob) (lm1 lm2 : Int) (blobs : List AzureBlob)
        (res : List String),
      azurePath container b1.name ∉ ingested →
      b1.lastModified = some lm1 → t < lm1 →
      ¬ b1.size.getD 0 > mx * 1024 * 1024 →
      azurePath container b2.name ∉ ingested →
      b2.lastModified = some lm2 → t < lm2 →
      ¬ b2.size.getD 0 > mx * 1024 * 1024 →
      b1 ∈ blobs → b2 ∈ blobs →
      azureFilesDiscovery hashFn container ingested t mx false
          (.ok blobs) = .ok res →
      azurePath container b1.name ∈ res ∧
        azurePath container b2.name ∈ res) := by
  refine ⟨?_, ?_, ?_, ?_, ?_, ?_⟩
  · intro o1 o2 lm1 lm2 pre mid post hm1 hi1 hlm1 ht1 hs1 hf1 hlm2 hc
    simp only [s3FilesDiscovery]
    exact s3Loop_dup_erase rfl hm1 hi1 hlm1 ht1 hs1 hf1 hlm2
      (by rw [hc]) pre [] []
  · intro b1 b2 lm1 pre mid post hi1 hlm1 ht1 hs1 hf1 hc
    simp only [azureFilesDiscovery, Except.ok.injEq]
    exact azureLoop_dup_erase rfl hi1 hlm1 ht1 hs1 hf1 (by rw [hc])
      pre [] []
  · intro o1 lm1 rest res hm1 hi1 hlm1 ht1 hs1 hf1 h
    simp only [s3FilesDiscovery] at h
    rw [s3Loop_cons, s3Step_pass_hash hm1 hi1 hlm1 ht1 hs1 rfl hf1
      (List.not_mem_nil _)] at h
    exact s3Loop_acc_mem h _ (List.mem_singleton.mpr rfl)
  · intro b1 lm1 rest res hi1 hlm1 ht1 hs1 hf1 h
    simp only [azureFilesDiscovery, Except.ok.injEq] at h
    rw [azureLoop_cons, azureStep_pass_hash hi1 hlm1 ht1 hs1 rfl hf1
      (List.not_mem_nil _)] at h
    exact h ▸ azureLoop_acc_mem _ (List.mem_singleton.mpr rfl)
  · intro o1 o2 lm1 lm2 objs res hm1 hi1 hlm1 ht1 hs1 hm2 hi2 hlm2 ht2
      hs2 ho1 ho2 h
    simp only [s3FilesDiscovery] at h
    exact ⟨s3Loop_mem_pass rfl hm1 hi1 hlm1 ht1 hs1 ho1 h,
      s3Loop_mem_pass rfl hm2 hi2 hlm2 ht2 hs2 ho2 h⟩
  · intro b1 b2 lm1 lm2 blobs res hi1 hlm1 ht1 hs1 hi2 hlm2 ht2 hs2
      hb1 hb2 h
    simp only [azureFilesDiscovery, Except.ok.injEq] at h
    exact ⟨h ▸ azureLoop_mem_pass rfl hi1 hlm1 ht1 hs1 hb1,
      h ▸ azureLoop_mem_pass rfl hi2 hlm2 ht2 hs2 hb2⟩

/-- Witness for C5 at a concrete input: keys `x` and `y` carry the same
byte `[7]`; with hashing on, each backend's result is unchanged by
deleting `y` from the listing, and `x` (listed first) is in the result;
with hashing off both paths appear. -/
theorem c5_content_hash_dedup_witness :
    s3FilesDiscovery (fun c => if c = [] then "e" else "n") "c" [] 0 500
        true (.ok [⟨"x", 1, some 10, [7], false⟩,
          ⟨"y", 1, some 11, [7], false⟩]) =
      s3FilesDiscovery (fun c => if c = [] then "e" else "n") "c" [] 0
        500 true (.ok [⟨"x", 1, some 10, [7], false⟩]) ∧
    azureFilesDiscovery (fun c => if c = [] then "e" else "n") "c" [] 0
        500 true (.ok [⟨"x", some 1, some 10, [7], false⟩,
          ⟨"y", some 1, some 11, [7], false⟩]) =
      azureFilesDiscovery (fun c => if c = [] then "e" else "n") "c" [] 0
        500 true (.ok [⟨"x", some 1, some 10, [7], false⟩]) ∧
    "s3://c/x" ∈ ["s3://c/x"] ∧ "azure://c/x" ∈ ["azure://c/x"] ∧
    ("s3://c/x" ∈ ["s3://c/x", "s3://c/y"] ∧
      "s3://c/y" ∈ ["s3://c/x", "s3://c/y"]) ∧
    ("azure://c/x" ∈ ["azure://c/x", "azure://c/y"] ∧
      "azure://c/y" ∈ ["azure://c/x", "azure://c/y"]) := by
  have h := c5_content_hash_dedup (fun c => if c = [] then "e" else "n")
    "c" "c" [] 0 500
  refine ⟨h.1 ⟨"x", 1, some 10, [7], false⟩ ⟨"y", 1, some 11, [7], false⟩
      10 11 [] [] [] (by decide) (by decide) rfl (by decide) (by decide)
      rfl rfl rfl,
    h.2.1 ⟨"x", some 1, some 10, [7], false⟩
      ⟨"y", some 1, some 11, [7], false⟩ 10 [] [] [] (by decide) rfl
      (by decide) (by decide) rfl rfl,
    h.2.2.1 ⟨"x", 1, some 10, [7], false⟩ 10
      [⟨"y", 1, some 11, [7], false⟩] ["s3://c/x"] (by decide)
      (by decide) rfl (by decide) (by decide) rfl rfl,
    h.2.2.2.1 ⟨"x", some 1, some 10, [7], false⟩ 10
      [⟨"y", some 1, some 11, [7], false⟩] ["azure://c/x"] (by decide)
      rfl (by decide) (by decide) rfl rfl,
    h.2.2.2.2.1 ⟨"x", 1, some 10, [7], false⟩
      ⟨"y", 1, some 11, [7], false⟩ 10 11
      [⟨"x", 1, some 10, [7], false⟩, ⟨"y", 1, some 11, [7], false⟩]
      ["s3://c/x", "s3://c/y"] (by decide) (by decide) rfl (by decide)
      (by decide) (by decide) (by decide) rfl (by decide) (by decide)
      (by decide) (by decide) rfl,
    h.2.2.2.2.2 ⟨"x", some 1, some 10, [7], false⟩
      ⟨"y", some 1, some 11, [7], false⟩ 10 11
      [⟨"x", some 1, some 10, [7], false⟩,
        ⟨"y", some 1, some 11, [7], false⟩]
      ["azure://c/x", "azure://c/y"] (by decide) rfl (by decide)
      (by decide) (by decide) rfl (by decide) (by decide) (by decide)
      (by decide) rfl⟩

/-- Counterexample to C6 as stated: an S3 object with no `LastModified`
aborts the whole discovery call — the qualifying object `good` listed
after it is lost — instead of being skipped. -/
theorem c6_counterexample_s3_error_on_missing_timestamp :
    s3FilesDiscovery (fun _ => "d") "c" [] 0 500 false
        (.ok [⟨"k", 3, none, [], false⟩, ⟨"good", 1, some 5, [], false⟩])
      = .error () :=
  rfl

/-- C6 amended: only `AzureBlobService.files_discovery` skips a listed
object with no last-modified timestamp and continues; in
`S3Service.files_discovery` the timestamp is read outside the `try`
block, so such an object (once past the marker and ingested checks)
aborts the whole call with an uncaught error. -/
theorem c6_missing_timestamp_split
    (hashFn : List Nat → String) (bucket container : String)
    (ingested : List String) (t : Int) (mx : Nat) (uh : Bool) :
    (∀ (b : AzureBlob) (pre post : List AzureBlob),
      b.lastModified = none →
      azureFilesDiscovery hashFn container ingested t mx uh
          (.ok (pre ++ b :: post)) =
        azureFilesDiscovery hashFn container ingested t mx uh
          (.ok (pre ++ post))) ∧
    (∀ (o : S3Object) (objs : List S3Object),
      o.lastModified = none →
      ¬(strEndsWith o.key "/" = true ∧ o.size = 0) →
      s3Path bucket o.key ∉ ingested → o ∈ objs →
      s3FilesDiscovery hashFn bucket ingested t mx uh (.ok objs) =
        .error ()) := by
  constructor
  · intro b pre post hlm
    simp only [azureFilesDiscovery, Except.ok.injEq]
    exact azureLoop_skip (fun seen acc => azureStep_noTimestamp hlm)
      pre [] []
  · intro o objs hlm hm hi ho
    simp only [s3FilesDiscovery]
    exact s3Loop_error hm hi hlm ho

/-- Witness for the amended C6 at a concrete input: the Azure scan is
unchanged by deleting the timestampless blob, while the S3 call with a
timestampless object returns an error. -/
theorem c6_missing_timestamp_split_witness :
    azureFilesDiscovery (fun _ => "d") "c" [] 0 500 false
        (.ok [⟨"k", some 3, none, [], false⟩,
          ⟨"good", some 1, some 5, [], false⟩]) =
      azureFilesDiscovery (fun _ => "d") "c" [] 0 500 false
        (.ok [⟨"good", some 1, some 5, [], false⟩]) ∧
    s3FilesDiscovery (fun _ => "d") "c" [] 0 500 false
        (.ok [⟨"k", 3, none, [], false⟩]) = .error () := by
  have h := c6_missing_timestamp_split (fun _ => "d") "c" "c" [] 0 500
    false
  exact ⟨h.1 ⟨"k", some 3, none, [], false⟩ []
      [⟨"good", some 1, some 5, [], false⟩] rfl,
    h.2 ⟨"k", 3, none, [], false⟩ [⟨"k", 3, none, [], false⟩] rfl
      (by decide) (by decide) (by decide)⟩

/-- C7: on both backends a fetch/hash failure on one object only erases
that object from the scan (the result is as if it were not listed, all
other qualifying objects unaffected), while a listing failure is not
caught and the whole discovery call returns the error.  On S3 the
isolated object must still carry a timestamp, since the uncaught
timestamp read precedes the `try` block. -/
theorem c7_error_isolation_and_listing_propagation
    (hashFn : List Nat → String) (bucket container : String)
    (ingested : List String) (t : Int) (mx : Nat) (uh : Bool) :
    (∀ (o : S3Object) (lm : Int) (pre post : List S3Object),
      o.fetchFails = true → o.lastModified = some lm →
      s3FilesDiscovery hashFn bucket ingested t mx true
          (.ok (pre ++ o :: post)) =
        s3FilesDiscovery hashFn bucket ingested t mx true
          (.ok (pre ++ post))) ∧
    (∀ (b : AzureBlob) (pre post : List AzureBlob),
      b.fetchFails = true →
      azureFilesDiscovery hashFn container ingested t mx true
          (.ok (pre ++ b :: post)) =
        azureFilesDiscovery hashFn container ingested t mx true
          (.ok (pre ++ post))) ∧
    s3FilesDiscovery hashFn bucket ingested t mx uh (.error ()) =
      .error () ∧
    azureFilesDiscovery hashFn container ingested t mx uh (.error ()) =
      .error () := by
  refine ⟨?_, ?_, rfl, rfl⟩
  · intro o lm pre post hf hlm
    simp only [s3FilesDiscovery]
    exact s3Loop_skip (fun seen acc => s3Step_fetchFails hlm rfl hf)
      pre [] []
  · intro b pre post hf
    simp only [azureFilesDiscovery, Except.ok.injEq]
    refine azureLoop_skip (fun seen acc => ?_) pre [] []
    cases hlmb : b.lastModified with
    | none => exact azureStep_noTimestamp hlmb
    | some lm => exact azureStep_fetchFails hlmb rfl hf

/-- Witness for C7 at a concrete input: a hash-failing object `bad` is
erased from each backend's scan while `good` survives, and an erroring
listing yields an erroring call. -/
theorem c7_error_isolation_witness :
    s3FilesDiscovery (fun _ => "d") "c" [] 0 500 true
        (.ok [⟨"bad", 1, some 9, [1], true⟩,
          ⟨"good", 1, some 9, [2], false⟩]) =
      s3FilesDiscovery (fun _ => "d") "c" [] 0 500 true
        (.ok [⟨"good", 1, some 9, [2], false⟩]) ∧
    azureFilesDiscovery (fun _ => "d") "c" [] 0 500 true
        (.ok [⟨"bad", some 1, some 9, [1], true⟩,
          ⟨"good", some 1, some 9, [2], false⟩]) =
      azureFilesDiscovery (fun _ => "d") "c" [] 0 500 true
        (.ok [⟨"good", some 1, some 9, [2], false⟩]) ∧
    s3FilesDiscovery (fun _ => "d") "c" [] 0 500 true (.error ()) =
      .error () ∧
    azureFilesDiscovery (fun _ => "d") "c" [] 0 500 true (.error ()) =
      .error () := by
  have h := c7_error_isolation_and_listing_propagation (fun _ => "d")
    "c" "c" [] 0 500 true
  exact ⟨h.1 ⟨"bad", 1, some 9, [1], true⟩ 9 []
      [⟨"good", 1, some 9, [2], false⟩] rfl rfl,
    h.2.1 ⟨"bad", some 1, some 9, [1], true⟩ []
      [⟨"good", some 1, some 9, [2], false⟩] rfl,
    h.2.2.1, h.2.2.2⟩

/-- Counterexample to C8 as stated: with environment defaults
`EK/ES/EU/ER`, supplying the access key `K` still configures the client
with the environment's `EK` (the provided credentials are dropped on the
floor, and the region override becomes `none`), and supplying only a
region `R` does take effect. -/
theorem c8_counterexample_init_ignores_credentials :
    s3ServiceInit ⟨some "EK", some "ES", some "EU", some "ER"⟩
        (some "K") none none none =
      ⟨some "EK", some "ES", some "EU", none⟩ ∧
    s3ServiceInit ⟨some "EK", some "ES", some "EU", some "ER"⟩
        none none none (some "R") =
      ⟨some "EK", some "ES", some "EU", some "R"⟩ :=
  ⟨rfl, rfl⟩

/-- C8 amended: constructing `S3Service` with no explicit argument uses
the environment defaults, region included; when any argument is
supplied, the access key, secret key and endpoint URL still come from
the environment defaults — the supplied credentials are never passed to
the client — and the region becomes exactly the supplied `aws_region`
argument (`none` when only credentials were supplied), so a region
supplied alone does take effect. -/
theorem c8_init_env_defaults_and_region
    (env : S3Env) (k s u r : Option String) :
    s3ServiceInit env none none none none =
      ⟨env.awsKey, env.awsSecret, env.awsUrl, env.awsRegion⟩ ∧
    ((k.isSome ∨ s.isSome ∨ u.isSome ∨ r.isSome) →
      s3ServiceInit env k s u r =
        ⟨env.awsKey, env.awsSecret, env.awsUrl, r⟩) := by
  constructor
  · simp [s3ServiceInit]
  · intro hp
    have hb : (k.isSome || s.isSome || u.isSome || r.isSome) = true := by
      rcases hp with h | h | h | h <;> simp [h]
    simp [s3ServiceInit, hb]

/-- Witness for the amended C8 at a concrete input: no arguments give
the environment configuration, and an access key alone gives the
environment credentials with region `none`. -/
theorem c8_init_env_defaults_and_region_witness :
    (some "K" : Option String).isSome = true ∧
    s3ServiceInit ⟨some "EK", some "ES", some "EU", some "ER"⟩
        none none none none =
      ⟨some "EK", some "ES", some "EU", some "ER"⟩ ∧
    s3ServiceInit ⟨some "EK", some "ES", some "EU", some "ER"⟩
        (some "K") none none none =
      ⟨some "EK", some "ES", some "EU", none⟩ := by
  have h := c8_init_env_defaults_and_region
    ⟨some "EK", some "ES", some "EU", some "ER"⟩ (some "K") none none
    none
  exact ⟨rfl, h.1, h.2 (Or.inl rfl)⟩

/-- Counterexample to C9 as stated: on an 8193-byte blob the Azure scan
passes the entire content to the hasher as a single buffer — one update
of 8193 bytes, larger than the 8192-byte read used by S3 — rather than
streaming it in fixed-size chunks. -/
theorem c9_counterexample_azure_readall :
    azureHashUpdates (List.replicate 8193 0) =
      [List.replicate 8193 0] ∧
    (List.replicate 8193 0).length = 8193 :=
  ⟨rfl, by rw [List.length_replicate]⟩

/-- C9 amended: only `S3Service.files_discovery` streams hash input in
bounded chunks — every buffer it feeds to the hasher is at most 8192
bytes and the buffers concatenate to the full content — while
`AzureBlobService.files_discovery` feeds the hasher the whole object
content in a single `readall()` buffer. -/
theorem c9_hash_streaming_s3_only :
    (∀ c : List Nat, ∀ ch ∈ s3HashUpdates c, ch.length ≤ 8192) ∧
    (∀ c : List Nat, (s3HashUpdates c).flatten = c) ∧
    (∀ c : List Nat, azureHashUpdates c = [c]) :=
  ⟨s3HashUpdates_bounded, s3HashUpdates_flatten, fun _ => rfl⟩

/-- Witness for the amended C9 at a concrete input. -/
theorem c9_hash_streaming_s3_only_witness :
    ([1, 2, 3] : List Nat).length ≤ 8192 ∧
    (s3HashUpdates [1, 2, 3]).flatten = [1, 2, 3] ∧
    azureHashUpdates [1, 2, 3] = [[1, 2, 3]] := by
  have h := c9_hash_streaming_s3_only
  exact ⟨h.1 [1, 2, 3] [1, 2, 3] (by decide), h.2.1 [1, 2, 3],
    h.2.2 [1, 2, 3]⟩

/-- C10: in `AzureBlobService.files_discovery` a listed blob whose size
attribute is absent is read as 0 bytes (`blob.size or 0`), so it passes
the size filter for every `max_file_size_mb` and appears in the result
once it passes the remaining filters. -/
theorem c10_azure_none_size_passes
    (hashFn : List Nat → String) (container : String)
    (ingested : List String) (t : Int) (mx : Nat) (b : AzureBlob)
    (lm : Int) (blobs : List AzureBlob) (res : List String)
    (hsz : b.size = none) (hi : azurePath container b.name ∉ ingested)
    (hlm : b.lastModified = some lm) (ht : t < lm) (hb : b ∈ blobs)
    (h : azureFilesDiscovery hashFn container ingested t mx false
      (.ok blobs) = .ok res) :
    azurePath container b.name ∈ res := by
  simp only [azureFilesDiscovery, Except.ok.injEq] at h
  exact h ▸ azureLoop_mem_pass rfl hi hlm ht (by simp [hsz]) hb

/-- Witness for C10 at a concrete input with the harshest limit
`max_file_size_mb = 0`: a sizeless blob still appears. -/
theorem c10_azure_none_size_passes_witness :
    "azure://c/n" ∈ ["azure://c/n"] :=
  c10_azure_none_size_passes (fun _ => "d") "c" [] 0 0
    ⟨"n", none, some 5, [], false⟩ 5 [⟨"n", none, some 5, [], false⟩]
    ["azure://c/n"] rfl (by decide) rfl (by decide) (by decide) rfl

end CloudSpec
